import Mathlib

/-
Shallow embedding of the elastic client (src/elastic.go), a minimal
Elasticsearch HTTP client.  Pure Go functions become Lean functions.  The
HTTP transport (http.DefaultClient.Do) and the two generic JSON decoders
(encoding/json on the error body and on the index catalog) are passed as
function parameters; io.Reader state is passed explicitly, since the code
under study reads a reader twice.  Go int is 64-bit (the platforms this
package targets), modelled as Int with explicit saturation where strconv
saturates.
-/

namespace Elastic

/-- Client (src/elastic.go lines 19-23): base url plus basic-auth
credentials, immutable after construction. -/
structure Client where
  url : String
  user : String
  pass : String
deriving DecidableEq

/-- header (src/elastic.go lines 25-28): one request header pair. -/
structure Header where
  key : String
  value : String
deriving DecidableEq

/-- Index (src/elastic.go lines 30-37): one catalog record.  count is the
raw docs.Count string from the service, docs the derived Go int. -/
structure Index where
  uuid : String
  name : String
  health : String
  status : String
  count : String
  docs : Int
deriving DecidableEq

/-- uriHealth constant (src/elastic.go line 15). -/
def uriHealth : String := "/_cat/health?format=json"

/-- uriIndices constant (src/elastic.go line 16). -/
def uriIndices : String := "/_cat/indices?format=json"

/-- standardHeaders (src/elastic.go lines 39-41). -/
def standardHeaders : List Header :=
  [⟨"Content-Type", "application/json"⟩]

/-- The outgoing request as fully built by Client.request before dispatch:
method, url and body from the caller, basic auth from the client
(req.SetBasicAuth, line 191), then every supplied header added
(lines 193-195). -/
structure HttpRequest where
  method : String
  url : String
  body : Option String
  user : String
  pass : String
  headers : List Header
deriving DecidableEq

/-- Result of http.DefaultClient.Do (src/elastic.go line 198): either the
transport fails with an error message and no response exists, or a
response arrives with a status code and a body stream.  The failure
branch also absorbs an http.NewRequest error (line 187): both failure
kinds are wrapped identically with context "request" and carry no
response body. -/
inductive DoResult where
  | fail (msg : String)
  | resp (status : Nat) (body : String)

/-- What happened to the response body stream by the time Client.request
returned: no body ever existed (transport failure), Close ran, or a body
existed and Close never ran. -/
inductive BodyFate where
  | noBody
  | closed
  | unclosed
deriving DecidableEq

/-- The nested shape errReason decodes into (src/elastic.go lines
216-220): an object with an error field holding a reason string. -/
structure ErrorReason where
  reason : String
deriving DecidableEq

/-- Outer error object, see ErrorReason. -/
structure ErrorResp where
  error : ErrorReason
deriving DecidableEq

/-- An io.Reader over a byte sequence: the state is the bytes not yet
consumed.  res.Body starts with the whole wire body remaining. -/
structure Reader where
  remaining : String
deriving DecidableEq

/-- ioutil.ReadAll: returns every remaining byte and leaves the reader
exhausted. -/
def readAll (r : Reader) : String × Reader :=
  (r.remaining, ⟨""⟩)

/-- json.NewDecoder(body).Decode (src/elastic.go line 222): when the
reader is already exhausted, Decode reads nothing and returns io.EOF,
whose message is "EOF"; otherwise the behaviour of encoding/json on the
available bytes is the decoder parameter dec, and the decoder consumes
the value it read. -/
def decodeErrResp (dec : String → Except String ErrorResp) (r : Reader) :
    Except String ErrorResp × Reader :=
  if r.remaining = "" then (Except.error "EOF", r)
  else (dec r.remaining, ⟨""⟩)

/-- errReason (src/elastic.go lines 211-228).  The source first ReadAlls
the body into xb for a debug print (lines 213-214, read error discarded),
then json-decodes from the SAME reader, which ReadAll has exhausted. -/
def errReason (dec : String → Except String ErrorResp) (body : Reader) :
    String :=
  let (_xb, body1) := readAll body
  match (decodeErrResp dec body1).1 with
  | Except.error e => e
  | Except.ok r => r.error.reason

/-- errors.Wrap from github.com/pkg/errors: the wrapped message is the
context, a colon and a space, then the cause. -/
def wrap (context cause : String) : String :=
  context ++ ": " ++ cause

/-- http.StatusText, restricted to the codes exercised here; Go returns
the empty string for a code not in its table. -/
def statusText (code : Nat) : String :=
  if code = 200 then "OK"
  else if code = 400 then "Bad Request"
  else if code = 404 then "Not Found"
  else if code = 500 then "Internal Server Error"
  else ""

/-- Outcome of one Client.request call: the returned value (body bytes or
error message), the requests dispatched over the transport, and the fate
of the response body stream. -/
structure ReqOutcome where
  result : Except String String
  sent : List HttpRequest
  fate : BodyFate

/-- Client.request (src/elastic.go lines 185-208).  Builds the request
(NewRequest, SetBasicAuth, header loop; the header debug print on line
196 has no effect), dispatches it, and then: transport failure is wrapped
with context "request" (line 200) and no body exists; a non-200 status
returns the status text, " - " and errReason of the body (line 203) -
this return happens BEFORE the defer of res.Body.Close on line 205, so on
that path Close never runs; on 200 the deferred Close is registered and
the whole body is returned (line 207). -/
def Client.request (dec : String → Except String ErrorResp)
    (t : HttpRequest → DoResult) (c : Client)
    (method url : String) (body : Option String) (headers : List Header) :
    ReqOutcome :=
  let req : HttpRequest := ⟨method, url, body, c.user, c.pass, headers⟩
  match t req with
  | DoResult.fail e =>
      ⟨Except.error (wrap "request" e), [req], BodyFate.noBody⟩
  | DoResult.resp status rbody =>
      if status ≠ 200 then
        ⟨Except.error (statusText status ++ " - " ++ errReason dec ⟨rbody⟩),
         [req], BodyFate.unclosed⟩
      else
        ⟨Except.ok (readAll ⟨rbody⟩).1, [req], BodyFate.closed⟩

/-- strings.ToLower (used on every index-name path segment), written as a
character-wise map over the string's character list (what String.toLower
computes).  Char.toLower agrees with Go's case mapping on ASCII input,
which every concrete instance in this development uses. -/
def goToLower (s : String) : String :=
  ⟨s.data.map Char.toLower⟩

/-- A decimal digit in the ASCII range, as strconv recognises. -/
def isDigit (c : Char) : Bool :=
  '0' ≤ c && c ≤ '9'

/-- Value of a digit list, most significant first. -/
def digitsToNat (l : List Char) : Nat :=
  l.foldl (fun a c => 10 * a + (c.toNat - 48)) 0

/-- strconv digit scan: fails on an empty digit string or on any
non-digit character; otherwise the exact mathematical value. -/
def parseDigits (l : List Char) : Option Nat :=
  if l.isEmpty then none
  else if l.all isDigit then some (digitsToNat l) else none

def int64Max : Int := 9223372036854775807

def int64Min : Int := -9223372036854775808

/-- strconv.Atoi, i.e. ParseInt(s, 10, 0) with 64-bit int: an optional
single leading sign then one or more decimal digits.  Returns the value
and whether the parse succeeded (err == nil).  On a syntax error Go
returns 0; on a range error Go returns the nearest representable int64
bound (ParseInt documents that on ErrRange the returned value is the
maximum magnitude integer of the sign), NOT zero - the pair's first
component is exactly Go's returned int in every case. -/
def goAtoi (s : String) : Int × Bool :=
  match s.data with
  | [] => (0, false)
  | c :: rest =>
    let p : Bool × List Char :=
      if c = '-' then (true, rest)
      else if c = '+' then (false, rest)
      else (false, c :: rest)
    match parseDigits p.2 with
    | none => (0, false)
    | some n =>
      let v : Int := if p.1 then -(n : Int) else (n : Int)
      if v > int64Max then (int64Max, false)
      else if v < int64Min then (int64Min, false)
      else (v, true)

/-- Result of a Go function that can also abort: a value, an error, or a
runtime panic. -/
inductive GoResult (α : Type) where
  | ok (a : α)
  | err (msg : String)
  | panics
deriving DecidableEq

/-- The filtering loop of Indices (src/elastic.go lines 73-79): for each
record in order, evaluate v.Name[0] - a runtime panic (index out of
range) if the name is empty; keep the record when that first byte is not
a dot, setting Docs to Atoi of Count with the error discarded (line 76).
The first-byte test on the String level: a UTF-8 string's first byte is
0x2E exactly when its first character is the dot, so the head character
carries the test. -/
def indicesLoop : List Index → Option (List Index)
  | [] => some []
  | v :: rest =>
    match v.name.data with
    | [] => none
    | c0 :: _ =>
      if c0 ≠ '.' then
        match indicesLoop rest with
        | none => none
        | some tl => some ({ v with docs := (goAtoi v.count).1 } :: tl)
      else indicesLoop rest

/-- CheckOK (src/elastic.go lines 53-56): GET the health endpoint with
the standard headers; the error, if any, is returned unwrapped. -/
def Client.CheckOK (dec : String → Except String ErrorResp)
    (t : HttpRequest → DoResult) (c : Client) :
    Except String Unit × List HttpRequest :=
  let o := Client.request dec t c "GET" (c.url ++ uriHealth) none
    standardHeaders
  (match o.result with
   | Except.error e => Except.error e
   | Except.ok _ => Except.ok (), o.sent)

/-- Indices (src/elastic.go lines 59-82): GET the catalog, wrap a request
failure with "NewRequest", unmarshal the body into a record list (wrap a
decode failure with "Unmarshal"), then run the filtering loop. -/
def Client.Indices (dec : String → Except String ErrorResp)
    (unmarshal : String → Except String (List Index))
    (t : HttpRequest → DoResult) (c : Client) :
    GoResult (List Index) × List HttpRequest :=
  let o := Client.request dec t c "GET" (c.url ++ uriIndices) none
    standardHeaders
  (match o.result with
   | Except.error e => GoResult.err (wrap "NewRequest" e)
   | Except.ok xb =>
     match unmarshal xb with
     | Except.error e => GoResult.err (wrap "Unmarshal" e)
     | Except.ok xi =>
       match indicesLoop xi with
       | none => GoResult.panics
       | some xi2 => GoResult.ok xi2, o.sent)

/-- CreateIndex (src/elastic.go lines 85-92): PUT to the lowercased name. -/
def Client.CreateIndex (dec : String → Except String ErrorResp)
    (t : HttpRequest → DoResult) (c : Client) (name : String) :
    Except String Unit × List HttpRequest :=
  let n := goToLower name
  let o := Client.request dec t c "PUT" (c.url ++ "/" ++ n) none
    standardHeaders
  (match o.result with
   | Except.error e => Except.error (wrap "CreateIndex" e)
   | Except.ok _ => Except.ok (), o.sent)

/-- DeleteIndex (src/elastic.go lines 95-102): DELETE the lowercased name. -/
def Client.DeleteIndex (dec : String → Except String ErrorResp)
    (t : HttpRequest → DoResult) (c : Client) (name : String) :
    Except String Unit × List HttpRequest :=
  let n := goToLower name
  let o := Client.request dec t c "DELETE" (c.url ++ "/" ++ n) none
    standardHeaders
  (match o.result with
   | Except.error e => Except.error (wrap "DeleteIndex" e)
   | Except.ok _ => Except.ok (), o.sent)

/-- IndexDoc (src/elastic.go lines 106-114): POST the document to
/lowercase-index/_doc/id; the id goes into the path as given. -/
def Client.IndexDoc (dec : String → Except String ErrorResp)
    (t : HttpRequest → DoResult) (c : Client) (index id doc : String) :
    Except String Unit × List HttpRequest :=
  let u := c.url ++ "/" ++ goToLower index ++ "/_doc/" ++ id
  let o := Client.request dec t c "POST" u (some doc) standardHeaders
  (match o.result with
   | Except.error e => Except.error (wrap "IndexDoc" e)
   | Except.ok _ => Except.ok (), o.sent)

/-- UpdateDoc (src/elastic.go lines 118-134): an empty id fails locally
with the message on line 121 and nothing is sent; otherwise the document
is wrapped in a doc object and POSTed to .../_doc/id/_update. -/
def Client.UpdateDoc (dec : String → Except String ErrorResp)
    (t : HttpRequest → DoResult) (c : Client) (index id doc : String) :
    Except String Unit × List HttpRequest :=
  if id = "" then
    (Except.error "UpdateDoc - id must be specified", [])
  else
    let body := "\x7b\"doc\": " ++ doc ++ "\x7d"
    let u := c.url ++ "/" ++ goToLower index ++ "/_doc/" ++ id ++ "/_update"
    let o := Client.request dec t c "POST" u (some body) standardHeaders
    (match o.result with
     | Except.error e => Except.error (wrap "UpdateDoc" e)
     | Except.ok _ => Except.ok (), o.sent)

/-- DeleteDoc (src/elastic.go lines 137-150): an empty id fails locally
with the message on line 140 - which the source spells "UpdateDoc - id
must be specified" - and nothing is sent; otherwise DELETE .../_doc/id. -/
def Client.DeleteDoc (dec : String → Except String ErrorResp)
    (t : HttpRequest → DoResult) (c : Client) (index id : String) :
    Except String Unit × List HttpRequest :=
  if id = "" then
    (Except.error "UpdateDoc - id must be specified", [])
  else
    let u := c.url ++ "/" ++ goToLower index ++ "/_doc/" ++ id
    let o := Client.request dec t c "DELETE" u none standardHeaders
    (match o.result with
     | Except.error e => Except.error (wrap "DeleteDoc" e)
     | Except.ok _ => Except.ok (), o.sent)

/-- QueryDoc (src/elastic.go lines 153-160): GET .../_doc/id and hand the
body bytes back unchanged. -/
def Client.QueryDoc (dec : String → Except String ErrorResp)
    (t : HttpRequest → DoResult) (c : Client) (index id : String) :
    Except String String × List HttpRequest :=
  let u := c.url ++ "/" ++ goToLower index ++ "/_doc/" ++ id
  let o := Client.request dec t c "GET" u none standardHeaders
  (match o.result with
   | Except.error e => Except.error (wrap "QueryDoc" e)
   | Except.ok xb => Except.ok xb, o.sent)

/-- Batch (src/elastic.go lines 166-182): POST the ndjson body to
.../_doc/_bulk with the content type overridden to the bulk media type,
returning the response bytes unchanged. -/
def Client.Batch (dec : String → Except String ErrorResp)
    (t : HttpRequest → DoResult) (c : Client) (index doc : String) :
    Except String String × List HttpRequest :=
  let u := c.url ++ "/" ++ goToLower index ++ "/_doc/_bulk"
  let headers : List Header := [⟨"Content-Type", "application/x-ndjson"⟩]
  let o := Client.request dec t c "POST" u (some doc) headers
  (match o.result with
   | Except.error e => Except.error (wrap "Batch" e)
   | Except.ok xb => Except.ok xb, o.sent)

/-- Spec-side description of the list-indices post-processing (spec
section 4.2): keep, in service order, exactly the records whose name
does not begin with a dot, each with its docs field derived from the
count string via Atoi with the error discarded. -/
def specKeptRecords (xi : List Index) : List Index :=
  (xi.filter (fun v => v.name.data.head? != some '.')).map
    (fun v => { v with docs := (goAtoi v.count).1 })

/-- Substring test used to state claims about error messages: does the
needle occur contiguously in the haystack. -/
def strContains (hay needle : String) : Bool :=
  (List.range (hay.data.length + 1)).any
    (fun i => needle.data.isPrefixOf (hay.data.drop i))

/-- Suffix test used to state claims about error messages: does the
string end with exactly the given suffix. -/
def strEndsWith (s suf : String) : Bool :=
  suf.data.isSuffixOf s.data

/- Concrete fixtures: a client, transports and decoders used to evaluate
the embedding at specific inputs. -/

/-- A concrete client. -/
def cTest : Client := ⟨"http://x", "u", "p"⟩

/-- A well-formed error body: an error object with reason "boom". -/
def wellFormedBody : String := "\x7b\"error\":\x7b\"reason\":\"boom\"\x7d\x7d"

/-- A json decoder for the error shape that decodes wellFormedBody to the
reason "boom" and rejects everything else. -/
def decBoom : String → Except String ErrorResp := fun s =>
  if s = wellFormedBody then Except.ok ⟨⟨"boom"⟩⟩
  else Except.error "unexpected shape"

/-- Transport answering every request with 404 and the well-formed error
body. -/
def t404 : HttpRequest → DoResult := fun _ => DoResult.resp 404 wellFormedBody

/-- Transport answering every request with 500 and an empty body. -/
def t500 : HttpRequest → DoResult := fun _ => DoResult.resp 500 ""

/-- Transport answering every request with 200 and a fixed body. -/
def tOK : HttpRequest → DoResult := fun _ => DoResult.resp 200 "response-bytes"

/-- Transport that always fails (connection refused). -/
def tFail : HttpRequest → DoResult := fun _ => DoResult.fail "connection refused"

/-- A small catalog: one user index and one dot-named system index. -/
def xiW : List Index :=
  [⟨"u1", "articles", "green", "open", "42", 0⟩,
   ⟨"u2", ".kibana", "green", "open", "7", 0⟩]

/-- Catalog unmarshaller yielding xiW for any body. -/
def unmarshalW : String → Except String (List Index) := fun _ => Except.ok xiW

/-- A docs.Count string one past the largest 64-bit int. -/
def bigCount : String := "9223372036854775808"

/-- A catalog whose single user record carries the overflowing count. -/
def xiBig : List Index := [⟨"u1", "articles", "green", "open", bigCount, 0⟩]

/-- Catalog unmarshaller yielding xiBig for any body. -/
def unmarshalBig : String → Except String (List Index) := fun _ =>
  Except.ok xiBig

/- Helper lemmas about the embedding. -/

/-- errReason ignores its decoder and its input: the ReadAll on line 213
exhausts the reader, so the decode on line 222 always returns io.EOF. -/
theorem errReason_eq_eof (dec : String → Except String ErrorResp)
    (body : Reader) : errReason dec body = "EOF" := rfl

/-- Client.request dispatches exactly the one request it builds, whatever
the transport answers. -/
theorem request_sent (dec : String → Except String ErrorResp)
    (t : HttpRequest → DoResult) (c : Client) (m u : String)
    (b : Option String) (hs : List Header) :
    (Client.request dec t c m u b hs).sent = [⟨m, u, b, c.user, c.pass, hs⟩] := by
  cases ht : t ⟨m, u, b, c.user, c.pass, hs⟩ with
  | fail e => simp [Client.request, ht]
  | resp s rb =>
    by_cases h200 : s = 200 <;> simp [Client.request, ht, h200]

/-- On a 200 answer, Client.request returns the whole wire body. -/
theorem request_result_200 (dec : String → Except String ErrorResp)
    (t : HttpRequest → DoResult) (c : Client) (m u : String)
    (b : Option String) (hs : List Header) (rbody : String)
    (ht : t ⟨m, u, b, c.user, c.pass, hs⟩ = DoResult.resp 200 rbody) :
    (Client.request dec t c m u b hs).result = Except.ok rbody := by
  simp [Client.request, ht, readAll]

/-- When every record name is non-empty, the Indices loop neither panics
nor reorders: it selects exactly the non-dot records in order and derives
each docs field, i.e. it computes specKeptRecords. -/
theorem indicesLoop_of_nonempty (xi : List Index)
    (h : ∀ v ∈ xi, v.name ≠ "") :
    indicesLoop xi = some (specKeptRecords xi) := by
  induction xi with
  | nil => rfl
  | cons v rest ih =>
    have hv : v.name ≠ "" := h v (List.mem_cons_self v rest)
    have hrest := ih (fun w hw => h w (List.mem_cons_of_mem v hw))
    cases hd : v.name.data with
    | nil => exact absurd (String.ext (by simp [hd])) hv
    | cons c0 tl =>
      have hh : v.name.data.head? = some c0 := by rw [hd]; rfl
      by_cases hc : c0 = '.'
      · subst hc
        simp [indicesLoop, hd, specKeptRecords, List.filter_cons, hh, hrest]
      · simp [indicesLoop, hd, hc, specKeptRecords, List.filter_cons, hh,
          hrest]

/-- Cancel a common prefix of a string concatenation. -/
theorem string_append_left_cancel (a b c : String)
    (h : a ++ b = a ++ c) : b = c := by
  have hd : (a ++ b).data = (a ++ c).data := congrArg String.data h
  rw [String.data_append, String.data_append] at hd
  exact String.ext (List.append_cancel_left hd)

/-- Cancel a common prefix and a common suffix of a string concatenation. -/
theorem string_append_both_cancel (a b c s : String)
    (h : a ++ b ++ s = a ++ c ++ s) : b = c := by
  have hd : (a ++ b ++ s).data = (a ++ c ++ s).data := congrArg String.data h
  rw [String.data_append, String.data_append, String.data_append,
    String.data_append] at hd
  exact String.ext (List.append_cancel_left (List.append_cancel_right hd))

/-- Claim C1: for every non-200 response whose body is a well-formed
error object, the request executor's error message should end with the
decoded reason.  The code evaluated at a failing input refutes this: on a
404 whose body decodes to reason "boom" (first conjunct), the message is
"Not Found - EOF" - errReason reads the body once for a debug print and
then json-decodes from the same, now exhausted, reader, so the decode
always yields io.EOF - which does not end with "boom"; QueryDoc surfaces
the same message. -/
theorem c1_message_ends_in_eof_not_reason :
    decBoom wellFormedBody = Except.ok ⟨⟨"boom"⟩⟩ ∧
    (Client.request decBoom t404 cTest "GET" (cTest.url ++ "/i") none
      standardHeaders).result = Except.error "Not Found - EOF" ∧
    (Client.QueryDoc decBoom t404 cTest "articles" "7").1 =
      Except.error "QueryDoc: Not Found - EOF" ∧
    strEndsWith "Not Found - EOF" "boom" = false ∧
    strEndsWith "QueryDoc: Not Found - EOF" "boom" = false :=
  ⟨rfl, rfl, rfl, by decide, by decide⟩

/-- Claim C2: the response body should be closed on every exit path of
the request executor.  Evaluating the executor on each path refutes the
non-200 case: there the return on line 203 precedes the defer of
res.Body.Close on line 205, so a received body is never closed; the
success path does close it, and on a transport failure no body exists. -/
theorem c2_body_unclosed_on_non200 :
    (Client.request decBoom t500 cTest "GET" (cTest.url ++ "/i") none
      standardHeaders).fate = BodyFate.unclosed ∧
    t500 ⟨"GET", cTest.url ++ "/i", none, "u", "p", standardHeaders⟩ =
      DoResult.resp 500 "" ∧
    (Client.request decBoom tOK cTest "GET" (cTest.url ++ "/i") none
      standardHeaders).fate = BodyFate.closed ∧
    (Client.request decBoom tFail cTest "GET" (cTest.url ++ "/i") none
      standardHeaders).fate = BodyFate.noBody :=
  ⟨rfl, rfl, rfl, rfl⟩

/-- Claim C3: every failure should identify the failing operation, and in
particular DeleteDoc's empty-id validation failure should identify
DeleteDoc.  Evaluating DeleteDoc at an empty id refutes this: the message
is "UpdateDoc - id must be specified" (the copy-pasted text on line 140),
which contains "UpdateDoc" and never mentions "DeleteDoc". -/
theorem c3_deletedoc_error_names_updatedoc :
    Client.DeleteDoc decBoom tOK cTest "articles" "" =
      (Except.error "UpdateDoc - id must be specified", []) ∧
    strContains "UpdateDoc - id must be specified" "DeleteDoc" = false ∧
    strContains "UpdateDoc - id must be specified" "UpdateDoc" = true :=
  ⟨rfl, by decide, by decide⟩

/-- Claim C4: with an empty id, UpdateDoc and DeleteDoc return the local
validation error and dispatch nothing over the transport (the sent list
is empty, for every transport); with a non-empty id exactly one request
is dispatched. -/
theorem c4_empty_id_validates_without_network
    (dec : String → Except String ErrorResp) (t : HttpRequest → DoResult)
    (c : Client) (index doc : String) :
    Client.UpdateDoc dec t c index "" doc =
      (Except.error "UpdateDoc - id must be specified", []) ∧
    Client.DeleteDoc dec t c index "" =
      (Except.error "UpdateDoc - id must be specified", []) ∧
    ∀ id, id ≠ "" →
      (Client.UpdateDoc dec t c index id doc).2.length = 1 ∧
      (Client.DeleteDoc dec t c index id).2.length = 1 := by
  refine ⟨rfl, rfl, fun id hid => ⟨?_, ?_⟩⟩
  · simp [Client.UpdateDoc, hid, request_sent]
  · simp [Client.DeleteDoc, hid, request_sent]

/-- Witness for C4 at concrete inputs: ids "" and "7". -/
theorem c4_witness :
    Client.UpdateDoc decBoom tOK cTest "articles" "" "d" =
      (Except.error "UpdateDoc - id must be specified", []) ∧
    Client.DeleteDoc decBoom tOK cTest "articles" "" =
      (Except.error "UpdateDoc - id must be specified", []) ∧
    (Client.UpdateDoc decBoom tOK cTest "articles" "7" "d").2.length = 1 ∧
    (Client.DeleteDoc decBoom tOK cTest "articles" "7").2.length = 1 := by
  have h := c4_empty_id_validates_without_network decBoom tOK cTest
    "articles" "d"
  exact ⟨h.1, h.2.1, (h.2.2 "7" (by decide)).1, (h.2.2 "7" (by decide)).2⟩

/-- Claim C7: on a 200 answer, QueryDoc hands back exactly the wire body
bytes the transport produced, unmodified. -/
theorem c7_querydoc_round_trip
    (dec : String → Except String ErrorResp) (t : HttpRequest → DoResult)
    (c : Client) (index id wire : String)
    (ht : t ⟨"GET", c.url ++ "/" ++ goToLower index ++ "/_doc/" ++ id,
      none, c.user, c.pass, standardHeaders⟩ = DoResult.resp 200 wire) :
    (Client.QueryDoc dec t c index id).1 = Except.ok wire := by
  have h := request_result_200 dec t c "GET"
    (c.url ++ "/" ++ goToLower index ++ "/_doc/" ++ id) none
    standardHeaders wire ht
  simp [Client.QueryDoc, h]

/-- Witness for C7 at a concrete 200 response. -/
theorem c7_witness :
    (Client.QueryDoc decBoom tOK cTest "articles" "7").1 =
      Except.ok "response-bytes" :=
  c7_querydoc_round_trip decBoom tOK cTest "articles" "7" "response-bytes"
    rfl

/-- Counterexample to claim C5 as stated: the claim says a kept record's
docs field is the parse of its count string or ZERO when that string
fails to parse.  On the catalog whose single record carries the count
"9223372036854775808" (one past the largest 64-bit int), Atoi fails with
a range error (second conjunct), yet the code - which discards the error
- stores the saturated bound 9223372036854775807, not zero. -/
theorem c5_counterexample :
    (Client.Indices decBoom unmarshalBig tOK cTest).1 =
      GoResult.ok
        [⟨"u1", "articles", "green", "open", bigCount,
          9223372036854775807⟩] ∧
    (goAtoi bigCount).2 = false ∧
    (goAtoi bigCount).1 ≠ 0 :=
  ⟨by decide, by decide, by decide⟩

/-- Claim C5 as amended: for every successfully decoded catalog response
all of whose records have non-empty names (the invariant of C9; an empty
name makes the loop panic instead of returning), Indices returns exactly
the records whose name does not begin with a dot, in the service-reported
order, each kept record's docs field being the value strconv.Atoi returns
for its count string with the error discarded - the parsed value on
success, zero on a syntax error, and the nearest representable 64-bit
bound on a range error. -/
theorem c5_indices_filter_amended
    (dec : String → Except String ErrorResp)
    (unmarshal : String → Except String (List Index))
    (t : HttpRequest → DoResult) (c : Client) (wire : String)
    (xi : List Index)
    (ht : t ⟨"GET", c.url ++ uriIndices, none, c.user, c.pass,
      standardHeaders⟩ = DoResult.resp 200 wire)
    (hu : unmarshal wire = Except.ok xi)
    (hne : ∀ v ∈ xi, v.name ≠ "") :
    (Client.Indices dec unmarshal t c).1 =
      GoResult.ok (specKeptRecords xi) := by
  have h := request_result_200 dec t c "GET" (c.url ++ uriIndices) none
    standardHeaders wire ht
  simp [Client.Indices, h, hu, indicesLoop_of_nonempty xi hne]

/-- Witness for the amended C5 at a concrete two-record catalog: the
dot-named ".kibana" record is dropped and "articles" keeps count 42. -/
theorem c5_witness :
    (Client.Indices decBoom unmarshalW tOK cTest).1 =
      GoResult.ok (specKeptRecords xiW) ∧
    specKeptRecords xiW =
      [⟨"u1", "articles", "green", "open", "42", 42⟩] :=
  ⟨c5_indices_filter_amended decBoom unmarshalW tOK cTest "response-bytes"
    xiW rfl rfl (by decide), by decide⟩

/-- Claim C6: in every method taking an index name (CreateIndex,
DeleteIndex, IndexDoc, UpdateDoc, DeleteDoc, QueryDoc, Batch), the
index-name path segment of the dispatched request's url is the lowercased
form of the argument; in particular CreateIndex on "Articles" issues a
PUT whose path holds the lowercase segment "articles". -/
theorem c6_index_segment_lowercased
    (dec : String → Except String ErrorResp) (t : HttpRequest → DoResult)
    (c : Client) (name id doc : String) :
    (Client.CreateIndex dec t c name).2 =
      [⟨"PUT", c.url ++ "/" ++ goToLower name, none, c.user, c.pass,
        standardHeaders⟩] ∧
    (Client.DeleteIndex dec t c name).2 =
      [⟨"DELETE", c.url ++ "/" ++ goToLower name, none, c.user, c.pass,
        standardHeaders⟩] ∧
    (Client.IndexDoc dec t c name id doc).2 =
      [⟨"POST", c.url ++ "/" ++ goToLower name ++ "/_doc/" ++ id,
        some doc, c.user, c.pass, standardHeaders⟩] ∧
    (id ≠ "" → (Client.UpdateDoc dec t c name id doc).2 =
      [⟨"POST",
        c.url ++ "/" ++ goToLower name ++ "/_doc/" ++ id ++ "/_update",
        some ("\x7b\"doc\": " ++ doc ++ "\x7d"), c.user, c.pass,
        standardHeaders⟩]) ∧
    (id ≠ "" → (Client.DeleteDoc dec t c name id).2 =
      [⟨"DELETE", c.url ++ "/" ++ goToLower name ++ "/_doc/" ++ id, none,
        c.user, c.pass, standardHeaders⟩]) ∧
    (Client.QueryDoc dec t c name id).2 =
      [⟨"GET", c.url ++ "/" ++ goToLower name ++ "/_doc/" ++ id, none,
        c.user, c.pass, standardHeaders⟩] ∧
    (Client.Batch dec t c name doc).2 =
      [⟨"POST", c.url ++ "/" ++ goToLower name ++ "/_doc/_bulk", some doc,
        c.user, c.pass, [⟨"Content-Type", "application/x-ndjson"⟩]⟩] ∧
    goToLower "Articles" = "articles" := by
  refine ⟨?_, ?_, ?_, fun hid => ?_, fun hid => ?_, ?_, ?_, by decide⟩
  · simp [Client.CreateIndex, request_sent]
  · simp [Client.DeleteIndex, request_sent]
  · simp [Client.IndexDoc, request_sent]
  · simp [Client.UpdateDoc, hid, request_sent]
  · simp [Client.DeleteDoc, hid, request_sent]
  · simp [Client.QueryDoc, request_sent]
  · simp [Client.Batch, request_sent]

/-- Witness for C6 at concrete inputs, including the "Articles" case. -/
theorem c6_witness :
    (Client.CreateIndex decBoom tOK cTest "Articles").2 =
      [⟨"PUT", "http://x/articles", none, "u", "p", standardHeaders⟩] ∧
    (Client.UpdateDoc decBoom tOK cTest "Articles" "7" "d").2 =
      [⟨"POST", "http://x/articles/_doc/7/_update",
        some "\x7b\"doc\": d\x7d", "u", "p", standardHeaders⟩] := by
  have h := c6_index_segment_lowercased decBoom tOK cTest "Articles" "7" "d"
  refine ⟨?_, ?_⟩
  · have h1 := h.1
    simpa using h1
  · have h4 := h.2.2.2.1 (by decide)
    simpa using h4

/-- Claim C8: every request Batch dispatches carries the header
Content-Type application/x-ndjson, and every request any other method
dispatches carries the standard header Content-Type application/json. -/
theorem c8_content_type_headers
    (dec : String → Except String ErrorResp)
    (unmarshal : String → Except String (List Index))
    (t : HttpRequest → DoResult) (c : Client) (name id doc : String) :
    standardHeaders = [⟨"Content-Type", "application/json"⟩] ∧
    (∀ r ∈ (Client.CheckOK dec t c).2, r.headers = standardHeaders) ∧
    (∀ r ∈ (Client.Indices dec unmarshal t c).2,
      r.headers = standardHeaders) ∧
    (∀ r ∈ (Client.CreateIndex dec t c name).2,
      r.headers = standardHeaders) ∧
    (∀ r ∈ (Client.DeleteIndex dec t c name).2,
      r.headers = standardHeaders) ∧
    (∀ r ∈ (Client.IndexDoc dec t c name id doc).2,
      r.headers = standardHeaders) ∧
    (∀ r ∈ (Client.UpdateDoc dec t c name id doc).2,
      r.headers = standardHeaders) ∧
    (∀ r ∈ (Client.DeleteDoc dec t c name id).2,
      r.headers = standardHeaders) ∧
    (∀ r ∈ (Client.QueryDoc dec t c name id).2,
      r.headers = standardHeaders) ∧
    (∀ r ∈ (Client.Batch dec t c name doc).2,
      r.headers = [⟨"Content-Type", "application/x-ndjson"⟩]) := by
  refine ⟨rfl, ?_, ?_, ?_, ?_, ?_, ?_, ?_, ?_, ?_⟩
  · intro r hr
    simp [Client.CheckOK, request_sent] at hr
    subst hr; rfl
  · intro r hr
    simp [Client.Indices, request_sent] at hr
    subst hr; rfl
  · intro r hr
    simp [Client.CreateIndex, request_sent] at hr
    subst hr; rfl
  · intro r hr
    simp [Client.DeleteIndex, request_sent] at hr
    subst hr; rfl
  · intro r hr
    simp [Client.IndexDoc, request_sent] at hr
    subst hr; rfl
  · intro r hr
    by_cases hid : id = ""
    · simp [Client.UpdateDoc, hid] at hr
    · simp [Client.UpdateDoc, hid, request_sent] at hr
      subst hr; rfl
  · intro r hr
    by_cases hid : id = ""
    · simp [Client.DeleteDoc, hid] at hr
    · simp [Client.DeleteDoc, hid, request_sent] at hr
      subst hr; rfl
  · intro r hr
    simp [Client.QueryDoc, request_sent] at hr
    subst hr; rfl
  · intro r hr
    simp [Client.Batch, request_sent] at hr
    subst hr; rfl

/-- Witness for C8: the concrete bulk request carries the ndjson content
type and the concrete health-check request the standard json one. -/
theorem c8_witness :
    (⟨"POST", "http://x/articles/_doc/_bulk", some "d", "u", "p",
      [⟨"Content-Type", "application/x-ndjson"⟩]⟩ : HttpRequest).headers =
      [⟨"Content-Type", "application/x-ndjson"⟩] ∧
    (⟨"GET", "http://x" ++ uriHealth, none, "u", "p",
      standardHeaders⟩ : HttpRequest).headers = standardHeaders := by
  have h := c8_content_type_headers decBoom unmarshalW tOK cTest
    "Articles" "7" "d"
  exact ⟨h.2.2.2.2.2.2.2.2.2 _ (by decide), h.2.1 _ (by decide)⟩

/-- Claim C9: when every name the catalog decoder can produce is
non-empty, the first-character check in Indices is never out of bounds:
Indices returns a value or an error, never the panic outcome. -/
theorem c9_indices_never_panics
    (dec : String → Except String ErrorResp)
    (unmarshal : String → Except String (List Index))
    (t : HttpRequest → DoResult) (c : Client)
    (hne : ∀ wire xi, unmarshal wire = Except.ok xi →
      ∀ v ∈ xi, v.name ≠ "") :
    (Client.Indices dec unmarshal t c).1 ≠ GoResult.panics := by
  cases hr : (Client.request dec t c "GET" (c.url ++ uriIndices) none
      standardHeaders).result with
  | error e => simp [Client.Indices, hr]
  | ok xb =>
    cases hu : unmarshal xb with
    | error e => simp [Client.Indices, hr, hu]
    | ok xi =>
      simp [Client.Indices, hr, hu,
        indicesLoop_of_nonempty xi (hne xb xi hu)]

/-- Witness for C9 with a concrete decoder whose only output is the
two-record catalog with non-empty names. -/
theorem c9_witness :
    (Client.Indices decBoom unmarshalW tOK cTest).1 ≠ GoResult.panics :=
  c9_indices_never_panics decBoom unmarshalW tOK cTest
    (fun _wire xi h => by
      injection h with h2
      subst h2
      decide)

/-- Claim C10: the document id goes into the path verbatim in IndexDoc,
UpdateDoc, DeleteDoc and QueryDoc - unlike the index name it is not
lowercased or otherwise transformed - and the id position of the url is
injective, so two ids differing only in case address different urls. -/
theorem c10_doc_id_verbatim
    (dec : String → Except String ErrorResp) (t : HttpRequest → DoResult)
    (c : Client) (index doc : String) :
    (∀ id, (Client.IndexDoc dec t c index id doc).2 =
      [⟨"POST", c.url ++ "/" ++ goToLower index ++ "/_doc/" ++ id,
        some doc, c.user, c.pass, standardHeaders⟩]) ∧
    (∀ id, (Client.QueryDoc dec t c index id).2 =
      [⟨"GET", c.url ++ "/" ++ goToLower index ++ "/_doc/" ++ id, none,
        c.user, c.pass, standardHeaders⟩]) ∧
    (∀ id, id ≠ "" → (Client.UpdateDoc dec t c index id doc).2 =
      [⟨"POST",
        c.url ++ "/" ++ goToLower index ++ "/_doc/" ++ id ++ "/_update",
        some ("\x7b\"doc\": " ++ doc ++ "\x7d"), c.user, c.pass,
        standardHeaders⟩]) ∧
    (∀ id, id ≠ "" → (Client.DeleteDoc dec t c index id).2 =
      [⟨"DELETE", c.url ++ "/" ++ goToLower index ++ "/_doc/" ++ id, none,
        c.user, c.pass, standardHeaders⟩]) ∧
    (∀ id id2, id ≠ id2 →
      c.url ++ "/" ++ goToLower index ++ "/_doc/" ++ id ≠
        c.url ++ "/" ++ goToLower index ++ "/_doc/" ++ id2 ∧
      c.url ++ "/" ++ goToLower index ++ "/_doc/" ++ id ++ "/_update" ≠
        c.url ++ "/" ++ goToLower index ++ "/_doc/" ++ id2 ++
          "/_update") := by
  refine ⟨fun id => ?_, fun id => ?_, fun id hid => ?_, fun id hid => ?_,
    fun id id2 h12 => ⟨fun h => h12 (string_append_left_cancel _ _ _ h),
      fun h => h12 (string_append_both_cancel _ _ _ _ h)⟩⟩
  · simp [Client.IndexDoc, request_sent]
  · simp [Client.QueryDoc, request_sent]
  · simp [Client.UpdateDoc, hid, request_sent]
  · simp [Client.DeleteDoc, hid, request_sent]

/-- Witness for C10: ids "A" and "a" differ only in case and address
different urls, and the dispatched QueryDoc request keeps "A" verbatim. -/
theorem c10_witness :
    (Client.QueryDoc decBoom tOK cTest "articles" "A").2 =
      [⟨"GET", cTest.url ++ "/" ++ goToLower "articles" ++ "/_doc/" ++ "A",
        none, cTest.user, cTest.pass, standardHeaders⟩] ∧
    cTest.url ++ "/" ++ goToLower "articles" ++ "/_doc/" ++ "A" ≠
      cTest.url ++ "/" ++ goToLower "articles" ++ "/_doc/" ++ "a" := by
  have h := c10_doc_id_verbatim decBoom tOK cTest "articles" "d"
  exact ⟨h.2.1 "A", (h.2.2.2.2 "A" "a" (by decide)).1⟩

end Elastic
